import Mathlib

/-!
Verification of the Shopper repository: a shallow embedding of the
frontend helpers under src/frontend and src/unnamed, and of the Price
Tracking and Alert Pipeline of spec.md whose backend code is not under
src (only its README and docs are), together with theorems settling the
frozen claims.
-/

namespace Shopper

/-! ## Frontend: ApiService (src/unnamed/part_001, part_002) -/

/-- Request headers built by ApiService.getHeaders: a Content-Type entry
and an optional Authorization entry. -/
structure Headers where
  contentType : Option String
  authorization : Option String
deriving DecidableEq, Repr

/-- JavaScript truthiness of the stored token: null and the empty string
are falsy, every other string is truthy. -/
def tokenTruthy : Option String → Bool
  | none => false
  | some t => !(t == "")

/-- ApiService.getHeaders: always sets Content-Type application/json and
adds a Bearer Authorization header only when includeAuth holds and the
stored token is truthy. -/
def getHeaders (includeAuth : Bool) (token : Option String) : Headers :=
  { contentType := some "application/json"
    authorization :=
      if includeAuth && tokenTruthy token then
        token.map (fun t => "Bearer " ++ t)
      else none }

/-- The empty headers object passed by ApiService.get when requiresAuth
is false. -/
def emptyHeaders : Headers := ⟨none, none⟩

/-- The headers ApiService.get attaches to a request: getHeaders true when
requiresAuth, the empty object otherwise. -/
def getRequestHeaders (requiresAuth : Bool) (token : Option String) : Headers :=
  if requiresAuth then getHeaders true token else emptyHeaders

/-! ## Frontend: PriceHistoryChart (src/frontend/src/components/PriceHistoryChart.jsx) -/

/-- The stats object shipped with a price history payload; every field is
nullable. -/
structure ChartStats where
  current_price : Option ℚ
  min_price : Option ℚ
  max_price : Option ℚ
  avg_price : Option ℚ
  price_change_pct : Option ℚ
deriving DecidableEq, Repr

/-- The object getTrendIndicator returns: icon, color and text. -/
structure TrendIndicator where
  icon : String
  color : String
  text : String
deriving DecidableEq, Repr

/-- getTrendIndicator from PriceHistoryChart.jsx: null when stats is
absent or price_change_pct is null; otherwise up, down or stable by the
sign of price_change_pct. -/
def getTrendIndicator (stats : Option ChartStats) : Option TrendIndicator :=
  match stats with
  | none => none
  | some st =>
    match st.price_change_pct with
    | none => none
    | some change =>
      if change > 0 then some ⟨"↑", "#ff4444", "up"⟩
      else if change < 0 then some ⟨"↓", "#4caf50", "down"⟩
      else some ⟨"→", "#888", "stable"⟩

/-- One data point of the chart payload. -/
structure ChartPoint where
  price : ℚ
  retailer : String
  date : String
deriving DecidableEq, Repr

/-- Math.min over a spread non-empty argument list, as used on price
arrays; 0 on the empty list, which the code never reaches. -/
def listMin : List ℚ → ℚ
  | [] => 0
  | p :: r => r.foldl min p

/-- Math.max over a spread non-empty argument list; 0 on the empty list,
which the code never reaches. -/
def listMax : List ℚ → ℚ
  | [] => 0
  | p :: r => r.foldl max p

/-- The priceRange value of getChartPath: maxPrice - minPrice, replaced
by 1 when that difference is 0 (the JavaScript `|| 1` guard). -/
def priceRangeOf (chartData : List ChartPoint) : ℚ :=
  if listMax (chartData.map (·.price)) - listMin (chartData.map (·.price)) = 0 then 1
  else listMax (chartData.map (·.price)) - listMin (chartData.map (·.price))

/-- The index denominator of getChartPath: chartData.length - 1, replaced
by 1 when it is 0 (the JavaScript `|| 1` guard). -/
def indexDenomOf (chartData : List ChartPoint) : ℚ :=
  if chartData.length - 1 = 0 then 1 else ((chartData.length - 1 : ℕ) : ℚ)

/-- The (x, y) coordinates getChartPath computes for each point, with
chartWidth = chartHeight = 100 and padding = 5. -/
def getChartCoords (chartData : List ChartPoint) : List (ℚ × ℚ) :=
  let prices := chartData.map (·.price)
  let minPrice := listMin prices
  ((List.range chartData.length).zip chartData).map (fun ip =>
    let x : ℚ := 5 + ((ip.1 : ℚ) / indexDenomOf chartData) * (100 - 2 * 5)
    let y : ℚ := 100 - 5 - ((ip.2.price - minPrice) / priceRangeOf chartData) * (100 - 2 * 5)
    (x, y))

/-- getChartPath from PriceHistoryChart.jsx: the empty string on empty
data, otherwise an SVG path string M x0,y0 L x1,y1 ... over the computed
coordinates. -/
def getChartPath (chartData : List ChartPoint) : String :=
  if chartData.isEmpty then ""
  else
    "M" ++ String.intercalate " L"
      ((getChartCoords chartData).map (fun c => toString c.1 ++ "," ++ toString c.2))

/-! ## Frontend: price display (ProductCard.jsx, Home.jsx / ProductDetailPage) -/

/-- One entry of product.prices as the frontend receives it. -/
structure PriceEntry where
  id : ℕ
  retailer : String
  price : ℚ
  in_stock : Bool
  url : Option String
deriving DecidableEq, Repr

/-- getLowestPrice from ProductDetailPage (Home.jsx lines 98 to 103):
null on an empty price list, null again when no entry is in stock,
otherwise Math.min over the in-stock prices. -/
def getLowestPrice (prices : List PriceEntry) : Option ℚ :=
  if prices.isEmpty then none
  else
    let inStockPrices := prices.filter (·.in_stock)
    if inStockPrices.isEmpty then none
    else some (listMin (inStockPrices.map (·.price)))

/-- The lowestPrice ProductCard.jsx displays: Math.min over all prices,
with no in-stock filter; null only on an empty price list. -/
def productCardLowestPrice (prices : List PriceEntry) : Option ℚ :=
  if prices.isEmpty then none
  else some (listMin (prices.map (·.price)))

/-! ## Frontend: Wishlist removal (src/frontend/src/pages/Wishlist.jsx) -/

/-- The product nested in a wishlist item. -/
structure WishlistProduct where
  id : ℕ
  name : String
  brand : Option String
deriving DecidableEq, Repr

/-- One wishlist item as rendered by Wishlist.jsx. -/
structure WishlistItem where
  id : ℕ
  product : WishlistProduct
  target_price : Option ℚ
deriving DecidableEq, Repr

/-- The component state touched by removeFromWishlist: the wishlist array
and the error message. -/
structure WishlistState where
  wishlist : List WishlistItem
  error : Option String
deriving DecidableEq, Repr

/-- removeFromWishlist from Wishlist.jsx, with the awaited delete request
outcome made explicit: on success the list is filtered by id, on a thrown
error only the error message is set. -/
def removeFromWishlist (st : WishlistState) (itemId : ℕ)
    (outcome : Except String Unit) : WishlistState :=
  match outcome with
  | .ok _ => { st with wishlist := st.wishlist.filter (fun item => item.id != itemId) }
  | .error msg => { st with error := some msg }

/-! ## Backend Price Store (spec sections 3, 4.5; backend code absent from src) -/

/-- Modelled from the spec: a PriceObservation of section 3, whose
backend definition (FastAPI models) is not under src. -/
structure PriceObservation where
  product_id : ℕ
  source_id : ℕ
  price : ℚ
  currency : String
  in_stock : Bool
  observed_at : ℕ
deriving DecidableEq, Repr

/-- Modelled from the spec: two observations are duplicates when their
(product_id, source_id, observed_at) tuples coincide. -/
def sameKey (a b : PriceObservation) : Bool :=
  a.product_id == b.product_id && a.source_id == b.source_id &&
    a.observed_at == b.observed_at

/-- A Price Store state: the stored rows in arrival order. -/
abbrev PriceStore : Type := List PriceObservation

/-- Modelled from the spec: append with insert-or-ignore semantics keyed
on (product_id, source_id, observed_at); the backend store code is not
under src. -/
def appendObs (s : PriceStore) (o : PriceObservation) : PriceStore :=
  if (List.any s (fun r => sameKey r o)) then s else s ++ [o]

/-- Number of stored rows carrying the key of the given observation. -/
def countKey (s : PriceStore) (o : PriceObservation) : ℕ :=
  (List.filter (fun r => sameKey r o) s).length

/-- A store is well formed when no two rows share a duplicate key; every
state reachable by appends from the empty store satisfies this. -/
abbrev WellFormed (s : PriceStore) : Prop :=
  List.Pairwise (fun a b => sameKey a b = false) s

/-- The stored rows of one product. -/
def rowsFor (s : PriceStore) (pid : ℕ) : List PriceObservation :=
  List.filter (fun r => r.product_id == pid) s

/-- The observation of highest observed_at in a list, earliest row winning
ties; none on the empty list. -/
def pickLatest : List PriceObservation → Option PriceObservation
  | [] => none
  | o :: rest =>
    some (rest.foldl (fun best r => if best.observed_at < r.observed_at then r else best) o)

/-- Modelled from the spec: latest(product_id), the highest-observed_at
in-stock observation across sources, falling back to any stored
observation when none is in stock; the backend store code is not under
src. -/
def latest (s : PriceStore) (pid : ℕ) : Option PriceObservation :=
  match pickLatest (List.filter (fun r => r.in_stock) (rowsFor s pid)) with
  | some o => some o
  | none => pickLatest (rowsFor s pid)

/-- Modelled from the spec: history(product_id, window), the observations
of the product inside the window ordered by observed_at ascending. -/
def history (s : PriceStore) (pid lo hi : ℕ) : List PriceObservation :=
  List.insertionSort (fun a b => a.observed_at ≤ b.observed_at)
    (List.filter (fun r => lo ≤ r.observed_at && r.observed_at ≤ hi) (rowsFor s pid))

/-- Derived statistics of section 4.5. -/
structure PriceStats where
  min_price : ℚ
  max_price : ℚ
  avg_price : ℚ
  price_change_pct : ℚ
deriving DecidableEq, Repr

/-- Modelled from the spec: stats(product_id, window) with min, max,
average and percent-change trend, the trend being 0 when only one
observation exists; the backend store code is not under src. -/
def stats (s : PriceStore) (pid lo hi : ℕ) : Option PriceStats :=
  match history s pid lo hi with
  | [] => none
  | h :: t =>
    let prices := (h :: t).map (·.price)
    let current := ((h :: t).getLastD h).price
    some
      { min_price := listMin prices
        max_price := listMax prices
        avg_price := prices.sum / (prices.length : ℚ)
        price_change_pct :=
          if t = [] then 0 else (current - h.price) / h.price * 100 }

/-! ## Backend Alert Evaluator (spec section 4.6; backend code absent from src) -/

/-- Watch states of section 3. -/
inductive WatchState
  | ACTIVE
  | TRIGGERED
  | CANCELLED
deriving DecidableEq, Repr

/-- Modelled from the spec: a Watch record of section 3. -/
structure Watch where
  user_id : ℕ
  product_id : ℕ
  target_price : ℚ
  state : WatchState
deriving DecidableEq, Repr

/-- Modelled from the spec: one evaluator pass over a watch, as a single
atomic compare-and-swap step (section 4.6 mandates that the conditional
ACTIVE to TRIGGERED flip and the decision to emit are one atomic update).
Returns the updated watch and the number of notification events emitted
by this pass: 1 exactly when the watch was ACTIVE and the latest price
satisfied price ≤ target_price, else 0. -/
def evalStep (w : Watch) (latestPrice : ℚ) : Watch × ℕ :=
  if w.state = WatchState.ACTIVE ∧ latestPrice ≤ w.target_price then
    ({ w with state := WatchState.TRIGGERED }, 1)
  else (w, 0)

/-- Modelled from the spec: n evaluator runs over the same watch. Because
each run performs one atomic compare-and-swap step, any interleaving of n
concurrent runs is exactly a sequence of n evalStep applications; the
result pairs the final watch with the total notification count. -/
def evalRuns : ℕ → Watch → ℚ → Watch × ℕ
  | 0, w, _ => (w, 0)
  | Nat.succ n, w, p =>
    let first := evalStep w p
    let rest := evalRuns n first.1 p
    (rest.1, first.2 + rest.2)

/-! ## Backend Retry Controller (spec section 4.3; backend code absent from src) -/

/-- Outcome of one fetch attempt, per the Fetch Client contract of
section 4.2. -/
inductive FetchOutcome
  | success (o : PriceObservation)
  | transient
  | permanent
deriving DecidableEq, Repr

/-- Result surfaced by the Retry Controller. -/
inductive FetchResult
  | ok (o : PriceObservation)
  | transientFetchFailure
  | permanentFetchFailure
deriving DecidableEq, Repr

/-- Modelled from the spec: the Retry Controller loop of section 4.3,
with the Fetch Client abstracted as a map from attempt index to outcome
(backoff delays do not affect attempt counts and are not modelled). The
pair returned is the surfaced result and the number of attempts made:
success and Permanent failure stop immediately, Transient failure retries
until the attempt budget is exhausted. -/
def retryRun (f : ℕ → FetchOutcome) (attempt : ℕ) : ℕ → FetchResult × ℕ
  | 0 => (FetchResult.transientFetchFailure, 0)
  | Nat.succ b =>
    match f attempt with
    | FetchOutcome.success o => (FetchResult.ok o, 1)
    | FetchOutcome.permanent => (FetchResult.permanentFetchFailure, 1)
    | FetchOutcome.transient =>
      let rest := retryRun f (attempt + 1) b
      (rest.1, rest.2 + 1)

/-- Modelled from the spec: one wrapped fetch with maxAttempts total
attempts allowed. -/
def retryFetch (f : ℕ → FetchOutcome) (maxAttempts : ℕ) : FetchResult × ℕ :=
  retryRun f 0 maxAttempts

/-- Modelled from the spec: the default maxAttempts of section 4.3. -/
def maxAttemptsDefault : ℕ := 3

/-! ## Helper lemmas on folded minima and maxima -/

theorem foldl_min_le (l : List ℚ) (a : ℚ) : l.foldl min a ≤ a := by
  induction l generalizing a with
  | nil => exact le_refl a
  | cons b t ih =>
    rw [List.foldl_cons]
    exact le_trans (ih (min a b)) (min_le_left a b)

theorem foldl_min_le_mem (l : List ℚ) (a x : ℚ) (hx : x ∈ l) : l.foldl min a ≤ x := by
  induction l generalizing a with
  | nil => cases hx
  | cons b t ih =>
    rw [List.foldl_cons]
    rcases List.mem_cons.mp hx with h | h
    · subst h
      exact le_trans (foldl_min_le t (min a x)) (min_le_right a x)
    · exact ih (min a b) h

theorem foldl_min_eq_or_mem (l : List ℚ) (a : ℚ) : l.foldl min a = a ∨ l.foldl min a ∈ l := by
  induction l generalizing a with
  | nil => exact Or.inl rfl
  | cons b t ih =>
    rw [List.foldl_cons]
    rcases ih (min a b) with h | h
    · rcases min_choice a b with hc | hc
      · exact Or.inl (h.trans hc)
      · exact Or.inr (by rw [h, hc]; exact List.mem_cons_self b t)
    · exact Or.inr (List.mem_cons_of_mem b h)

theorem le_foldl_max (l : List ℚ) (a : ℚ) : a ≤ l.foldl max a := by
  induction l generalizing a with
  | nil => exact le_refl a
  | cons b t ih =>
    rw [List.foldl_cons]
    exact le_trans (le_max_left a b) (ih (max a b))

theorem mem_le_foldl_max (l : List ℚ) (a x : ℚ) (hx : x ∈ l) : x ≤ l.foldl max a := by
  induction l generalizing a with
  | nil => cases hx
  | cons b t ih =>
    rw [List.foldl_cons]
    rcases List.mem_cons.mp hx with h | h
    · subst h
      exact le_trans (le_max_right a x) (le_foldl_max t (max a x))
    · exact ih (max a b) h

theorem listMin_le_of_mem {l : List ℚ} {x : ℚ} (hx : x ∈ l) : listMin l ≤ x := by
  cases l with
  | nil => cases hx
  | cons p r =>
    show r.foldl min p ≤ x
    rcases List.mem_cons.mp hx with h | h
    · subst h; exact foldl_min_le r x
    · exact foldl_min_le_mem r p x h

theorem le_listMax_of_mem {l : List ℚ} {x : ℚ} (hx : x ∈ l) : x ≤ listMax l := by
  cases l with
  | nil => cases hx
  | cons p r =>
    show x ≤ r.foldl max p
    rcases List.mem_cons.mp hx with h | h
    · subst h; exact le_foldl_max r x
    · exact mem_le_foldl_max r p x h

theorem listMin_mem {l : List ℚ} (h : l ≠ []) : listMin l ∈ l := by
  cases l with
  | nil => exact absurd rfl h
  | cons p r =>
    show r.foldl min p ∈ p :: r
    rcases foldl_min_eq_or_mem r p with h1 | h1
    · rw [h1]; exact List.mem_cons_self p r
    · exact List.mem_cons_of_mem p h1

/-! ## Claim theorems -/

/-- C9: a request issued via ApiService.get with requiresAuth = false
carries no Authorization header, and two runs that differ only in the
stored token value produce identical request headers. -/
theorem unauthenticated_requests_ignore_token :
    (∀ token : Option String, (getRequestHeaders false token).authorization = none) ∧
    (∀ t1 t2 : Option String, getRequestHeaders false t1 = getRequestHeaders false t2) :=
  ⟨fun _ => rfl, fun _ _ => rfl⟩

/-- C7: the trend indicator text is up exactly when price_change_pct is
positive, down exactly when it is negative, stable exactly when it is 0,
and no indicator is produced when stats is absent or price_change_pct is
null. -/
theorem trend_indicator_matches_pct_sign :
    getTrendIndicator none = none ∧
    (∀ cur mn mx av : Option ℚ,
      getTrendIndicator (some ⟨cur, mn, mx, av, none⟩) = none) ∧
    (∀ (cur mn mx av : Option ℚ) (c : ℚ),
      (Option.map TrendIndicator.text
          (getTrendIndicator (some ⟨cur, mn, mx, av, some c⟩)) = some "up" ↔ 0 < c) ∧
      (Option.map TrendIndicator.text
          (getTrendIndicator (some ⟨cur, mn, mx, av, some c⟩)) = some "down" ↔ c < 0) ∧
      (Option.map TrendIndicator.text
          (getTrendIndicator (some ⟨cur, mn, mx, av, some c⟩)) = some "stable" ↔ c = 0)) := by
  refine ⟨rfl, fun _ _ _ _ => rfl, ?_⟩
  intro cur mn mx av c
  rcases lt_trichotomy c 0 with h | h | h
  · have h1 : ¬ c > 0 := not_lt_of_lt h
    refine ⟨?_, ?_, ?_⟩ <;>
      simp [getTrendIndicator, h, h1, h.ne, not_lt_of_lt h]
  · subst h
    refine ⟨?_, ?_, ?_⟩ <;> simp [getTrendIndicator]
  · have h1 : ¬ c < 0 := not_lt_of_lt h
    refine ⟨?_, ?_, ?_⟩ <;>
      simp [getTrendIndicator, h, h1, h.ne.symm]

/-- C8: on a successful delete the new wishlist is the old one with every
item of the given id removed, other items unchanged and in order, and the
error untouched; on a thrown delete only the error message is set. -/
theorem wishlist_removal_exact :
    ∀ (st : WishlistState) (itemId : ℕ),
      (removeFromWishlist st itemId (Except.ok ())).error = st.error ∧
      (removeFromWishlist st itemId (Except.ok ())).wishlist.Sublist st.wishlist ∧
      (∀ it : WishlistItem,
        (removeFromWishlist st itemId (Except.ok ())).wishlist.count it
          = if it.id = itemId then 0 else st.wishlist.count it) ∧
      (∀ msg : String,
        removeFromWishlist st itemId (Except.error msg)
          = { st with error := some msg }) := by
  intro st itemId
  refine ⟨rfl, List.filter_sublist _, ?_, fun _ => rfl⟩
  intro it
  by_cases h : it.id = itemId
  · rw [if_pos h]
    refine List.count_eq_zero.mpr ?_
    intro hmem
    have := List.of_mem_filter hmem
    simp [h] at this
  · rw [if_neg h]
    refine List.count_filter ?_
    simp [h]

theorem getLowestPrice_eq (prices : List PriceEntry) :
    getLowestPrice prices =
      if (List.filter (fun p => p.in_stock) prices).isEmpty then none
      else some (listMin ((List.filter (fun p => p.in_stock) prices).map (·.price))) := by
  cases prices with
  | nil => rfl
  | cons a l => rfl

/-- C5 counterexample: a product with one observation that is out of
stock has a non-empty observation list, yet getLowestPrice returns null
instead of falling back to that observation. -/
theorem lowest_price_no_fallback_counterexample :
    getLowestPrice [⟨1, "RetailerA", 50, false, none⟩] = none ∧
    ([⟨1, "RetailerA", 50, false, none⟩] : List PriceEntry) ≠ [] :=
  ⟨rfl, by simp⟩

/-- C5 (amended): getLowestPrice returns a value exactly when some
observation is in stock — it returns null both on an empty list and when
every observation is out of stock, with no fallback; the ProductCard
minimum is defined exactly when the observation list is non-empty. -/
theorem lowest_price_defined_iff_in_stock :
    ∀ prices : List PriceEntry,
      ((getLowestPrice prices).isSome = true ↔ ∃ p ∈ prices, p.in_stock = true) ∧
      ((productCardLowestPrice prices).isSome = true ↔ prices ≠ []) := by
  intro prices
  constructor
  · rw [getLowestPrice_eq]
    by_cases hf : (List.filter (fun p => p.in_stock) prices).isEmpty = true
    · rw [if_pos hf]
      rw [List.isEmpty_iff, List.filter_eq_nil_iff] at hf
      simp only [Option.isSome_none, Bool.false_eq_true, false_iff, not_exists]
      intro p hp
      exact hf p hp.1 hp.2
    · rw [if_neg hf]
      rw [List.isEmpty_iff] at hf
      simp only [Option.isSome_some, true_iff]
      rcases List.exists_mem_of_ne_nil _ hf with ⟨p, hp⟩
      rcases List.mem_filter.mp hp with ⟨hp1, hp2⟩
      exact ⟨p, hp1, hp2⟩
  · by_cases hp : prices.isEmpty = true
    · have h1 : productCardLowestPrice prices = none := by
        simp [productCardLowestPrice, hp]
      rw [List.isEmpty_iff] at hp
      rw [h1]
      simp [hp]
    · have h1 : productCardLowestPrice prices = some (listMin (prices.map (·.price))) := by
        simp [productCardLowestPrice, hp]
      rw [h1]
      rw [List.isEmpty_iff] at hp
      simp [hp]

/-- C4 counterexample: with an out-of-stock observation at price 10 and
an in-stock one at price 20, the ProductCard displays 10 — a price no
in-stock observation has — while the detail page reports 20. -/
theorem card_price_ignores_stock_counterexample :
    productCardLowestPrice
        [⟨1, "RetailerA", 10, false, none⟩, ⟨2, "RetailerB", 20, true, none⟩] = some 10 ∧
    getLowestPrice
        [⟨1, "RetailerA", 10, false, none⟩, ⟨2, "RetailerB", 20, true, none⟩] = some 20 ∧
    (∃ p ∈ ([⟨1, "RetailerA", 10, false, none⟩, ⟨2, "RetailerB", 20, true, none⟩] :
        List PriceEntry), p.in_stock = true) ∧
    (∀ p ∈ ([⟨1, "RetailerA", 10, false, none⟩, ⟨2, "RetailerB", 20, true, none⟩] :
        List PriceEntry), p.in_stock = true → p.price ≠ 10) := by
  refine ⟨?_, ?_, ?_, ?_⟩ <;> decide

/-- C4 (amended): whenever some observation is in stock, the detail
page function getLowestPrice reports the lowest in-stock price (attained by an
in-stock observation and below every in-stock price); the ProductCard
instead reports the minimum over all observations regardless of stock
status, so an out-of-stock observation can determine the card price. -/
theorem lowest_in_stock_vs_card_price :
    ∀ prices : List PriceEntry,
      ((∃ p ∈ prices, p.in_stock = true) →
        ∃ q, getLowestPrice prices = some q ∧
          (∃ p ∈ prices, p.in_stock = true ∧ p.price = q) ∧
          (∀ p ∈ prices, p.in_stock = true → q ≤ p.price)) ∧
      (prices ≠ [] →
        ∃ q, productCardLowestPrice prices = some q ∧
          (∃ p ∈ prices, p.price = q) ∧
          (∀ p ∈ prices, q ≤ p.price)) := by
  intro prices
  constructor
  · rintro ⟨p0, hp0, hs0⟩
    have hfne : List.filter (fun p => p.in_stock) prices ≠ [] := by
      intro h
      exact absurd (List.mem_filter.mpr ⟨hp0, hs0⟩) (by simp [h])
    have hne : ¬ (List.filter (fun p => p.in_stock) prices).isEmpty = true := by
      rw [List.isEmpty_iff]; exact hfne
    refine ⟨listMin ((List.filter (fun p => p.in_stock) prices).map (·.price)), ?_, ?_, ?_⟩
    · rw [getLowestPrice_eq, if_neg hne]
    · have hmapne : (List.filter (fun p => p.in_stock) prices).map (·.price) ≠ [] := by
        intro h
        exact hfne (List.map_eq_nil_iff.mp h)
      rcases List.mem_map.mp (listMin_mem hmapne) with ⟨p, hpf, hpe⟩
      rcases List.mem_filter.mp hpf with ⟨hpp, hps⟩
      exact ⟨p, hpp, hps, hpe⟩
    · intro p hp hs
      exact listMin_le_of_mem (List.mem_map.mpr ⟨p, List.mem_filter.mpr ⟨hp, hs⟩, rfl⟩)
  · intro hne
    have hpe : ¬ prices.isEmpty = true := by rw [List.isEmpty_iff]; exact hne
    refine ⟨listMin (prices.map (·.price)), ?_, ?_, ?_⟩
    · simp [productCardLowestPrice, hpe]
    · have hmapne : prices.map (·.price) ≠ [] := by
        intro h
        exact hne (List.map_eq_nil_iff.mp h)
      rcases List.mem_map.mp (listMin_mem hmapne) with ⟨p, hp, hq⟩
      exact ⟨p, hp, hq⟩
    · intro p hp
      exact listMin_le_of_mem (List.mem_map.mpr ⟨p, hp, rfl⟩)

/-- C4 witness: the amended statement evaluated on a one-entry in-stock
price list. -/
theorem lowest_in_stock_vs_card_price_witness :
    (∃ p ∈ ([⟨2, "RetailerB", 20, true, none⟩] : List PriceEntry), p.in_stock = true) ∧
    ([⟨2, "RetailerB", 20, true, none⟩] : List PriceEntry) ≠ [] ∧
    (∃ q, getLowestPrice [⟨2, "RetailerB", 20, true, none⟩] = some q ∧
      (∃ p ∈ ([⟨2, "RetailerB", 20, true, none⟩] : List PriceEntry),
        p.in_stock = true ∧ p.price = q) ∧
      (∀ p ∈ ([⟨2, "RetailerB", 20, true, none⟩] : List PriceEntry),
        p.in_stock = true → q ≤ p.price)) ∧
    (∃ q, productCardLowestPrice [⟨2, "RetailerB", 20, true, none⟩] = some q ∧
      (∃ p ∈ ([⟨2, "RetailerB", 20, true, none⟩] : List PriceEntry), p.price = q) ∧
      (∀ p ∈ ([⟨2, "RetailerB", 20, true, none⟩] : List PriceEntry), q ≤ p.price)) :=
  ⟨by decide, by decide,
    (lowest_in_stock_vs_card_price [⟨2, "RetailerB", 20, true, none⟩]).1 (by decide),
    (lowest_in_stock_vs_card_price [⟨2, "RetailerB", 20, true, none⟩]).2 (by decide)⟩

theorem indexDenomOf_pos (chartData : List ChartPoint) : 0 < indexDenomOf chartData := by
  unfold indexDenomOf
  by_cases h : chartData.length - 1 = 0
  · rw [if_pos h]; norm_num
  · rw [if_neg h]
    exact_mod_cast Nat.pos_of_ne_zero h

theorem getChartCoords_eq (chartData : List ChartPoint) :
    getChartCoords chartData =
      ((List.range chartData.length).zip chartData).map (fun ip =>
        (5 + ((ip.1 : ℚ) / indexDenomOf chartData) * 90,
         95 - ((ip.2.price - listMin (chartData.map (·.price))) / priceRangeOf chartData) * 90)) := by
  unfold getChartCoords
  refine List.map_congr_left ?_
  intro ip _
  simp only [Prod.mk.injEq]
  constructor <;> ring

/-- C10: getChartPath is total and its coordinates stay in the drawing
area: the empty data list gives the empty string, the two divisors of the
coordinate formulas are never 0, and every computed x and y coordinate
lies within [5, 95]. -/
theorem chart_path_total_and_bounded :
    getChartPath [] = "" ∧
    (∀ chartData : List ChartPoint,
      priceRangeOf chartData ≠ 0 ∧ indexDenomOf chartData ≠ 0) ∧
    (∀ (chartData : List ChartPoint) (c : ℚ × ℚ), c ∈ getChartCoords chartData →
      5 ≤ c.1 ∧ c.1 ≤ 95 ∧ 5 ≤ c.2 ∧ c.2 ≤ 95) := by
  refine ⟨rfl, ?_, ?_⟩
  · intro chartData
    constructor
    · unfold priceRangeOf
      by_cases h : listMax (chartData.map (·.price)) - listMin (chartData.map (·.price)) = 0
      · rw [if_pos h]; norm_num
      · rw [if_neg h]; exact h
    · exact ne_of_gt (indexDenomOf_pos chartData)
  · intro data c hc
    rw [getChartCoords_eq] at hc
    rcases List.mem_map.mp hc with ⟨ip, hip, rfl⟩
    obtain ⟨hi, hpt⟩ := List.of_mem_zip hip
    rw [List.mem_range] at hi
    have hdpos := indexDenomOf_pos data
    have hx0 : 0 ≤ (ip.1 : ℚ) / indexDenomOf data := by positivity
    have hx1 : (ip.1 : ℚ) / indexDenomOf data ≤ 1 := by
      rw [div_le_one hdpos]
      unfold indexDenomOf
      by_cases h : data.length - 1 = 0
      · have h0 : ip.1 = 0 := by omega
        rw [if_pos h, h0]
        norm_num
      · rw [if_neg h]
        have h0 : ip.1 ≤ data.length - 1 := by omega
        exact_mod_cast h0
    have hmem : ip.2.price ∈ data.map (·.price) := List.mem_map.mpr ⟨ip.2, hpt, rfl⟩
    have hmn : listMin (data.map (·.price)) ≤ ip.2.price := listMin_le_of_mem hmem
    have hmx : ip.2.price ≤ listMax (data.map (·.price)) := le_listMax_of_mem hmem
    have hy01 : 0 ≤ (ip.2.price - listMin (data.map (·.price))) / priceRangeOf data ∧
        (ip.2.price - listMin (data.map (·.price))) / priceRangeOf data ≤ 1 := by
      unfold priceRangeOf
      by_cases h : listMax (data.map (·.price)) - listMin (data.map (·.price)) = 0
      · rw [if_pos h]
        have he : ip.2.price = listMin (data.map (·.price)) :=
          le_antisymm (by linarith) hmn
        rw [he]
        norm_num
      · rw [if_neg h]
        have hpos : 0 < listMax (data.map (·.price)) - listMin (data.map (·.price)) :=
          lt_of_le_of_ne (by linarith) (Ne.symm h)
        constructor
        · exact div_nonneg (by linarith) hpos.le
        · rw [div_le_one hpos]; linarith
    have hb90 : (0 : ℚ) ≤ 90 := by norm_num
    have hxm0 := mul_nonneg hx0 hb90
    have hxm1 := mul_le_mul_of_nonneg_right hx1 hb90
    have hym0 := mul_nonneg hy01.1 hb90
    have hym1 := mul_le_mul_of_nonneg_right hy01.2 hb90
    refine ⟨?_, ?_, ?_, ?_⟩ <;> dsimp only <;> linarith

/-- C10 witness: the bound applied to a one-point chart, whose only
coordinate is (5, 95). -/
theorem chart_path_total_and_bounded_witness :
    ((5, 95) : ℚ × ℚ) ∈ getChartCoords [⟨10, "RetailerA", "2024-01-01"⟩] ∧
    (5 ≤ ((5, 95) : ℚ × ℚ).1 ∧ ((5, 95) : ℚ × ℚ).1 ≤ 95 ∧
      5 ≤ ((5, 95) : ℚ × ℚ).2 ∧ ((5, 95) : ℚ × ℚ).2 ≤ 95) := by
  have hl : getChartCoords [⟨10, "RetailerA", "2024-01-01"⟩] = [((5 : ℚ), (95 : ℚ))] := by
    norm_num [getChartCoords, indexDenomOf, priceRangeOf, listMin, listMax, List.range_succ, List.range_zero]
  have hm : ((5, 95) : ℚ × ℚ) ∈ getChartCoords [⟨10, "RetailerA", "2024-01-01"⟩] := by
    rw [hl]; exact List.mem_singleton_self _
  exact ⟨hm, chart_path_total_and_bounded.2.2 [⟨10, "RetailerA", "2024-01-01"⟩] (5, 95) hm⟩

theorem evalRuns_not_active (n : ℕ) (w : Watch) (p : ℚ)
    (hw : w.state ≠ WatchState.ACTIVE) : evalRuns n w p = (w, 0) := by
  induction n with
  | zero => rfl
  | succ m ih =>
    have hs : evalStep w p = (w, 0) := by
      unfold evalStep
      rw [if_neg]
      intro h
      exact hw h.1
    simp [evalRuns, hs, ih]

/-- C1: for an ACTIVE watch whose latest price satisfies
price ≤ target_price, any number n ≥ 1 of evaluator runs — each one an
atomic compare-and-swap step, so every interleaving of n concurrent runs
is a sequence of n steps — ends in TRIGGERED with exactly one
notification event, the unique ACTIVE to TRIGGERED flip being the one
emitting step; a watch in TRIGGERED or CANCELLED is skipped: it is left
unchanged and emits nothing, for every n. -/
theorem alert_fires_exactly_once :
    ∀ (w : Watch) (p : ℚ) (n : ℕ),
      (w.state = WatchState.ACTIVE → p ≤ w.target_price → 1 ≤ n →
        evalRuns n w p = ({ w with state := WatchState.TRIGGERED }, 1)) ∧
      ((w.state = WatchState.TRIGGERED ∨ w.state = WatchState.CANCELLED) →
        evalRuns n w p = (w, 0)) := by
  intro w p n
  constructor
  · intro hw hp hn
    obtain ⟨m, rfl⟩ : ∃ m, n = m + 1 := ⟨n - 1, by omega⟩
    have hs : evalStep w p = ({ w with state := WatchState.TRIGGERED }, 1) := by
      unfold evalStep
      rw [if_pos ⟨hw, hp⟩]
    have hrest : evalRuns m { w with state := WatchState.TRIGGERED } p
        = ({ w with state := WatchState.TRIGGERED }, 0) :=
      evalRuns_not_active m _ p (by simp)
    simp [evalRuns, hs, hrest]
  · intro hw
    refine evalRuns_not_active n w p ?_
    rcases hw with h | h <;> rw [h] <;> simp

/-- C1 witness: target 50, latest price 49.99, three runs fire once from
ACTIVE and zero times from TRIGGERED. -/
theorem alert_fires_exactly_once_witness :
    (4999 / 100 : ℚ) ≤ 50 ∧ 1 ≤ 3 ∧
    evalRuns 3 ⟨7, 1, 50, WatchState.ACTIVE⟩ (4999 / 100)
      = (⟨7, 1, 50, WatchState.TRIGGERED⟩, 1) ∧
    evalRuns 3 ⟨7, 1, 50, WatchState.TRIGGERED⟩ (4999 / 100)
      = (⟨7, 1, 50, WatchState.TRIGGERED⟩, 0) :=
  ⟨by norm_num, by norm_num,
    (alert_fires_exactly_once ⟨7, 1, 50, WatchState.ACTIVE⟩ (4999 / 100) 3).1
      rfl (by norm_num) (by norm_num),
    (alert_fires_exactly_once ⟨7, 1, 50, WatchState.TRIGGERED⟩ (4999 / 100) 3).2
      (Or.inl rfl)⟩

theorem retryRun_all_transient (f : ℕ → FetchOutcome)
    (h : ∀ i, f i = FetchOutcome.transient) :
    ∀ (b a : ℕ), retryRun f a b = (FetchResult.transientFetchFailure, b) := by
  intro b
  induction b with
  | zero => intro a; rfl
  | succ m ih =>
    intro a
    simp [retryRun, h a, ih (a + 1)]

/-- C6: a fetch whose every attempt is a Transient failure is attempted
exactly maxAttempts times (3 at the default) and then surfaces
transientFetchFailure, never more; a fetch whose first attempt is a
Permanent failure is never retried: exactly one attempt, surfacing
permanentFetchFailure immediately. -/
theorem retry_bound_and_permanent_never_retried :
    ∀ (f : ℕ → FetchOutcome) (maxAttempts : ℕ),
      ((∀ i, f i = FetchOutcome.transient) →
        retryFetch f maxAttempts = (FetchResult.transientFetchFailure, maxAttempts) ∧
        retryFetch f maxAttemptsDefault = (FetchResult.transientFetchFailure, 3)) ∧
      (f 0 = FetchOutcome.permanent → 1 ≤ maxAttempts →
        retryFetch f maxAttempts = (FetchResult.permanentFetchFailure, 1)) := by
  intro f maxAttempts
  constructor
  · intro h
    exact ⟨retryRun_all_transient f h maxAttempts 0, retryRun_all_transient f h 3 0⟩
  · intro h hm
    obtain ⟨m, rfl⟩ : ∃ m, maxAttempts = m + 1 := ⟨maxAttempts - 1, by omega⟩
    show retryRun f 0 (m + 1) = (FetchResult.permanentFetchFailure, 1)
    simp [retryRun, h]

/-- C6 witness: the retry bound at maxAttempts = 3 for an all-transient
source and a first-attempt-permanent source. -/
theorem retry_bound_witness :
    retryFetch (fun _ => FetchOutcome.transient) 3
      = (FetchResult.transientFetchFailure, 3) ∧
    (fun _ : ℕ => FetchOutcome.permanent) 0 = FetchOutcome.permanent ∧
    1 ≤ 3 ∧
    retryFetch (fun _ => FetchOutcome.permanent) 3
      = (FetchResult.permanentFetchFailure, 1) :=
  ⟨((retry_bound_and_permanent_never_retried (fun _ => FetchOutcome.transient) 3).1
      (fun _ => rfl)).1,
    rfl, by norm_num,
    (retry_bound_and_permanent_never_retried (fun _ => FetchOutcome.permanent) 3).2
      rfl (by norm_num)⟩

theorem sameKey_refl (o : PriceObservation) : sameKey o o = true := by
  simp [sameKey]

theorem sameKey_of_sameKey {a b o : PriceObservation}
    (h1 : sameKey a o = true) (h2 : sameKey b o = true) : sameKey a b = true := by
  simp only [sameKey, Bool.and_eq_true, beq_iff_eq] at h1 h2 ⊢
  exact ⟨⟨h1.1.1.trans h2.1.1.symm, h1.1.2.trans h2.1.2.symm⟩, h1.2.trans h2.2.symm⟩

theorem appendObs_any (s : PriceStore) (o : PriceObservation) :
    (appendObs s o).any (fun r => sameKey r o) = true := by
  unfold appendObs
  by_cases h : s.any (fun r => sameKey r o) = true
  · rw [if_pos h]; exact h
  · rw [if_neg h]
    rw [List.any_append]
    simp [sameKey_refl]

theorem appendObs_appendObs (s : PriceStore) (o : PriceObservation) :
    appendObs (appendObs s o) o = appendObs s o := by
  show (if (appendObs s o).any (fun r => sameKey r o) = true then appendObs s o
      else appendObs s o ++ [o]) = appendObs s o
  rw [if_pos (appendObs_any s o)]

theorem countKey_cons (r : PriceObservation) (t : PriceStore) (o : PriceObservation) :
    countKey (r :: t) o
      = if sameKey r o = true then countKey t o + 1 else countKey t o := by
  unfold countKey
  by_cases h : sameKey r o = true
  · simp [List.filter_cons, h]
  · simp [List.filter_cons, h]

theorem countKey_eq_zero_of_any_false {s : PriceStore} {o : PriceObservation}
    (h : s.any (fun r => sameKey r o) = false) : countKey s o = 0 := by
  unfold countKey
  rw [List.length_eq_zero, List.filter_eq_nil_iff]
  rw [List.any_eq_false] at h
  exact h

theorem countKey_eq_one_of_wf (s : PriceStore) (o : PriceObservation) :
    WellFormed s → s.any (fun r => sameKey r o) = true → countKey s o = 1 := by
  induction s with
  | nil => intro _ hany; cases hany
  | cons r t ih =>
    intro hwf hany
    unfold WellFormed at hwf
    rw [List.pairwise_cons] at hwf
    obtain ⟨hr, hwt⟩ := hwf
    rw [List.any_cons] at hany
    rw [countKey_cons]
    by_cases h : sameKey r o = true
    · rw [if_pos h]
      have h0 : countKey t o = 0 := by
        apply countKey_eq_zero_of_any_false
        rw [List.any_eq_false]
        intro b hb hk
        have hrb := sameKey_of_sameKey h hk
        rw [hr b hb] at hrb
        cases hrb
      rw [h0]
    · rw [if_neg h]
      rw [Bool.or_eq_true] at hany
      rcases hany with h1 | h1
      · exact absurd h1 h
      · exact ih hwt h1

theorem wellFormed_appendObs (s : PriceStore) (o : PriceObservation)
    (hwf : WellFormed s) : WellFormed (appendObs s o) := by
  unfold appendObs
  by_cases h : s.any (fun r => sameKey r o) = true
  · rw [if_pos h]; exact hwf
  · rw [if_neg h]
    have hf : s.any (fun r => sameKey r o) = false := by
      revert h
      cases s.any (fun r => sameKey r o) <;> simp
    rw [List.any_eq_false] at hf
    show List.Pairwise (fun a b => sameKey a b = false) (s ++ [o])
    rw [List.pairwise_append]
    refine ⟨hwf, List.pairwise_singleton _ _, ?_⟩
    intro a ha b hb
    rw [List.mem_singleton] at hb
    subst hb
    cases hsk : sameKey a b
    · rfl
    · exact absurd hsk (hf a ha)

/-- C2: appending the same observation twice equals appending it once; on
every well-formed store (no two rows share a key, which every state
reachable by appends satisfies) the doubled append leaves exactly one
stored row for the (product_id, source_id, observed_at) key of the
observation
key; and the stats output after the second append equals the stats output
after the first. -/
theorem append_idempotent :
    ∀ (s : PriceStore) (o : PriceObservation),
      appendObs (appendObs s o) o = appendObs s o ∧
      (WellFormed s → countKey (appendObs (appendObs s o) o) o = 1) ∧
      (∀ pid lo hi : ℕ,
        stats (appendObs (appendObs s o) o) pid lo hi
          = stats (appendObs s o) pid lo hi) := by
  intro s o
  refine ⟨appendObs_appendObs s o, ?_, ?_⟩
  · intro hwf
    rw [appendObs_appendObs]
    by_cases h : s.any (fun r => sameKey r o) = true
    · have he : appendObs s o = s := by
        unfold appendObs
        rw [if_pos h]
      rw [he]
      exact countKey_eq_one_of_wf s o hwf h
    · have hf : s.any (fun r => sameKey r o) = false := by
        revert h
        cases s.any (fun r => sameKey r o) <;> simp
      have he : appendObs s o = s ++ [o] := by
        simp [appendObs, hf]
      rw [he]
      unfold countKey
      rw [List.filter_append]
      have h1 : List.filter (fun r => sameKey r o) s = [] :=
        List.filter_eq_nil_iff.mpr (List.any_eq_false.mp hf)
      have h2 : List.filter (fun r => sameKey r o) [o] = [o] := by
        simp [List.filter_cons, sameKey_refl]
      rw [h1, h2]
      rfl
  · intro pid lo hi
    rw [appendObs_appendObs]

/-- C2 witness: the idempotence statement evaluated on a one-row
well-formed store and a fresh observation. -/
theorem append_idempotent_witness :
    WellFormed [⟨2, 1, 30, "USD", true, 7⟩] ∧
    appendObs (appendObs (appendObs [⟨2, 1, 30, "USD", true, 7⟩] ⟨1, 1, 80, "USD", true, 9⟩)
        ⟨1, 1, 80, "USD", true, 9⟩) ⟨1, 1, 80, "USD", true, 9⟩
      = appendObs (appendObs [⟨2, 1, 30, "USD", true, 7⟩] ⟨1, 1, 80, "USD", true, 9⟩)
        ⟨1, 1, 80, "USD", true, 9⟩ ∧
    countKey (appendObs (appendObs [⟨2, 1, 30, "USD", true, 7⟩] ⟨1, 1, 80, "USD", true, 9⟩)
        ⟨1, 1, 80, "USD", true, 9⟩) ⟨1, 1, 80, "USD", true, 9⟩ = 1 :=
  ⟨by decide,
    (append_idempotent (appendObs [⟨2, 1, 30, "USD", true, 7⟩] ⟨1, 1, 80, "USD", true, 9⟩)
      ⟨1, 1, 80, "USD", true, 9⟩).1,
    (append_idempotent [⟨2, 1, 30, "USD", true, 7⟩] ⟨1, 1, 80, "USD", true, 9⟩).2.1
      (by decide)⟩

/-- C3 counterexample: from the empty store, appending an out-of-stock
observation at t = 10 and then an in-stock one at t = 5 for the same
product and source leaves latest reporting the t = 5 observation, because
latest prefers in-stock observations; so latest does not always report
the t = 10 observation. -/
theorem latest_out_of_order_counterexample :
    Option.map PriceObservation.observed_at
        (latest (appendObs (appendObs [] ⟨1, 1, 100, "USD", false, 10⟩)
          ⟨1, 1, 90, "USD", true, 5⟩) 1) = some 5 ∧
    latest (appendObs (appendObs [] ⟨1, 1, 100, "USD", false, 10⟩)
        ⟨1, 1, 90, "USD", true, 5⟩) 1 ≠ some ⟨1, 1, 100, "USD", false, 10⟩ := by
  constructor <;> decide

/-- C3 (amended): for every store holding no observation of the product,
appending an in-stock observation at t = 10 and then any observation at
t = 5 for the same product leaves latest reporting the t = 10
observation: latest is decided by maximal observed_at among in-stock
rows, not by arrival order. -/
theorem latest_by_max_observed_at :
    ∀ (s : PriceStore) (o10 o5 : PriceObservation) (pid : ℕ),
      o10.product_id = pid → o5.product_id = pid →
      o10.observed_at = 10 → o5.observed_at = 5 →
      o10.in_stock = true →
      (∀ r ∈ s, r.product_id ≠ pid) →
      latest (appendObs (appendObs s o10) o5) pid = some o10 := by
  intro s o10 o5 pid h10p h5p h10t h5t h10s hs
  have hany1 : s.any (fun r => sameKey r o10) = false := by
    rw [List.any_eq_false]
    intro r hr hk
    simp only [sameKey, Bool.and_eq_true, beq_iff_eq] at hk
    exact hs r hr (hk.1.1.trans h10p)
  have happ1 : appendObs s o10 = s ++ [o10] := by
    simp [appendObs, hany1]
  have hany2 : (s ++ [o10]).any (fun r => sameKey r o5) = false := by
    rw [List.any_append]
    have hA : s.any (fun r => sameKey r o5) = false := by
      rw [List.any_eq_false]
      intro r hr hk
      simp only [sameKey, Bool.and_eq_true, beq_iff_eq] at hk
      exact hs r hr (hk.1.1.trans h5p)
    have hB : List.any [o10] (fun r => sameKey r o5) = false := by
      simp [sameKey, h10t, h5t]
    rw [hA, hB]
    rfl
  have happ2 : appendObs (s ++ [o10]) o5 = s ++ [o10] ++ [o5] := by
    simp [appendObs, hany2]
  rw [happ1, happ2]
  have hrows : rowsFor (s ++ [o10] ++ [o5]) pid = [o10, o5] := by
    unfold rowsFor
    rw [List.filter_append, List.filter_append]
    have h1 : List.filter (fun r => r.product_id == pid) s = [] := by
      rw [List.filter_eq_nil_iff]
      intro r hr
      simp [hs r hr]
    have h2 : List.filter (fun r => r.product_id == pid) [o10] = [o10] := by
      simp [h10p]
    have h3 : List.filter (fun r => r.product_id == pid) [o5] = [o5] := by
      simp [h5p]
    rw [h1, h2, h3]
    rfl
  unfold latest
  rw [hrows]
  by_cases h5in : o5.in_stock = true
  · simp [h10s, h5in, pickLatest, h10t, h5t]
  · have h5in0 : o5.in_stock = false := by
      revert h5in
      cases o5.in_stock <;> simp
    simp [h10s, h5in0, pickLatest]

/-- C3 witness: the amended statement on the empty store with two
concrete in-stock observations arriving out of order. -/
theorem latest_by_max_observed_at_witness :
    (⟨1, 1, 100, "USD", true, 10⟩ : PriceObservation).observed_at = 10 ∧
    (⟨1, 1, 90, "USD", true, 5⟩ : PriceObservation).observed_at = 5 ∧
    (∀ r ∈ ([] : PriceStore), r.product_id ≠ 1) ∧
    latest (appendObs (appendObs [] ⟨1, 1, 100, "USD", true, 10⟩)
        ⟨1, 1, 90, "USD", true, 5⟩) 1 = some ⟨1, 1, 100, "USD", true, 10⟩ :=
  ⟨rfl, rfl, by simp,
    latest_by_max_observed_at [] ⟨1, 1, 100, "USD", true, 10⟩ ⟨1, 1, 90, "USD", true, 5⟩ 1
      rfl rfl rfl rfl rfl (by simp)⟩

end Shopper
